import Mathlib

/-!
# Verification of the unmanic-plugins notifier and remediation plugins

This file gives a shallow embedding of the import-mode reconciliation logic of
`source/notify_sonarr/plugin.py` and `source/notify_radarr/plugin.py`, and of the
four-pass worker pipeline of `source/rarbg_fix/plugin.py`, together with theorems
settling the specification claims about them.

Strings are modelled by Lean `String` (logically a wrapper around `List Char`);
the Python `os.path` / `posixpath` functions used by the plugins are re-implemented
here character-for-character from CPython's `posixpath.py` (POSIX separator `/`).
The filesystem is modelled as an explicit state (a list of regular-file paths plus
a list of directory paths), and every externally visible effect of the plugin code
(renames, chmod, HTTP API calls, the fatal `NameError` in the radarr removal
branch) is recorded in an action trace.
-/

namespace UnmanicPlugins

/-! ## Character-list string primitives

Python string operations used by the plugins, implemented over `List Char` so that
all definitions reduce well in the kernel.  `charsInfix n h` is Python's
`n in h` (contiguous-substring test). -/

/-- Python's `needle in haystack` substring containment on character lists. -/
def charsInfix (n : List Char) : List Char → Bool
  | [] => n.isEmpty
  | c :: rest => n.isPrefixOf (c :: rest) || charsInfix n rest

/-- Substring containment on `String`: Python's `needle in haystack`. -/
def strContains (hay needle : String) : Bool :=
  charsInfix needle.data hay.data

/-- Index of the last occurrence of character `c` (Python `s.rfind(c)`,
`none` when absent). -/
def lastIdxOf (c : Char) : List Char → Option Nat
  | [] => none
  | x :: xs =>
    match lastIdxOf c xs with
    | some i => some (i + 1)
    | none => if x = c then some 0 else none

/-- Start index of the last occurrence of substring `sep` (used by Python
`s.rpartition(sep)`), `none` when absent. -/
def lastSubOcc (sep : List Char) : List Char → Option Nat
  | [] => if sep.isEmpty then some 0 else none
  | c :: rest =>
    match lastSubOcc sep rest with
    | some i => some (i + 1)
    | none => if sep.isPrefixOf (c :: rest) then some 0 else none

/-- Head component of Python `s.rpartition(sep)`: the part before the last
occurrence of `sep`, or `""` when `sep` does not occur. -/
def rpartitionHead (s sep : String) : String :=
  match lastSubOcc sep.data s.data with
  | some i => ⟨s.data.take i⟩
  | none => ""

/-- Python `s.split('/')` (single-character separator, keeps empty parts). -/
def splitSlash : List Char → List (List Char)
  | [] => [[]]
  | x :: xs =>
    let r := splitSlash xs
    if x = '/' then [] :: r
    else
      match r with
      | h :: t => (x :: h) :: t
      | [] => [[x]]

/-- Python `s.split('/')` returning `String` parts. -/
def splitSlashStr (s : String) : List String :=
  (splitSlash s.data).map (fun l => ⟨l⟩)

/-- Python `'/'.join(parts)` on character lists. -/
def joinSlash : List (List Char) → List Char
  | [] => []
  | [x] => x
  | x :: xs => x ++ '/' :: joinSlash xs

/-- Python `s.endswith(suf)`. -/
def charsSuffix (suf s : List Char) : Bool :=
  suf.reverse.isPrefixOf s.reverse

/-- Python `s.lower()` (ASCII lowering, as used on codec names and titles). -/
def strLower (s : String) : String :=
  ⟨s.data.map Char.toLower⟩

/-! ## posixpath functions

Faithful translations of the CPython `posixpath` functions the plugins call:
`basename`, `splitext`, `join`, `normpath`, `abspath`, `relpath`.  `abspath` and
`relpath` take the process working directory `cwd` explicitly (CPython reads it
via `os.getcwd()`); it only matters for non-absolute arguments. -/

/-- `os.path.basename`: everything after the last `/`. -/
def posix_basename (p : String) : String :=
  match lastIdxOf '/' p.data with
  | some i => ⟨p.data.drop (i + 1)⟩
  | none => p

/-- First component of `os.path.splitext`.  CPython splits at the last dot of the
final path component, except that a run of leading dots in that component never
starts an extension (`splitext(".tmp") = (".tmp", "")`). -/
def splitextFst (p : String) : String :=
  let cs := p.data
  let sep1 : Nat :=
    match lastIdxOf '/' cs with
    | some i => i + 1
    | none => 0
  match lastIdxOf '.' cs with
  | none => p
  | some d =>
    if sep1 ≤ d ∧ ((cs.drop sep1).take (d - sep1)).any (fun ch => ch ≠ '.') then
      ⟨cs.take d⟩
    else p

/-- Two-argument `os.path.join` (posixpath). -/
def posix_join2 (a b : String) : String :=
  if b.data.head? = some '/' then b
  else if a.data = [] ∨ a.data.getLast? = some '/' then a ++ b
  else a ++ "/" ++ b

/-- `os.path.normpath` (posixpath): collapse `//` and `.` components, resolve
`..` components where possible, preserve a leading `//` (exactly two slashes). -/
def posix_normpath (p : String) : String :=
  if p.data = [] then "." else
  let slashes : Nat :=
    if ("//".data).isPrefixOf p.data ∧ ¬ ("///".data).isPrefixOf p.data then 2
    else if ("/".data).isPrefixOf p.data then 1
    else 0
  let comps := splitSlash p.data
  let newComps := comps.foldl (fun acc comp =>
    if comp = [] ∨ comp = ['.'] then acc
    else if comp ≠ ['.', '.'] ∨ (slashes = 0 ∧ acc = []) ∨ acc.getLast? = some ['.', '.'] then
      acc ++ [comp]
    else if acc ≠ [] then acc.dropLast
    else acc) []
  let res : List Char := List.replicate slashes '/' ++ joinSlash newComps
  if res = [] then "." else ⟨res⟩

/-- `os.path.abspath` with explicit working directory `cwd`. -/
def posix_abspath (cwd p : String) : String :=
  if p.data.head? = some '/' then posix_normpath p
  else posix_normpath (posix_join2 cwd p)

/-- Length of the common prefix of two component lists (as in
`posixpath.relpath`). -/
def commonLen : List String → List String → Nat
  | a :: as_, b :: bs => if a = b then commonLen as_ bs + 1 else 0
  | _, _ => 0

/-- `os.path.relpath path start` with explicit working directory `cwd`.
(CPython raises `ValueError` on an empty `path`; the plugins never pass one.) -/
def posix_relpath (cwd path start : String) : String :=
  let pl := ((splitSlash (posix_abspath cwd path).data).filter (· ≠ [])).map
    (fun l => (⟨l⟩ : String))
  let sl := ((splitSlash (posix_abspath cwd start).data).filter (· ≠ [])).map
    (fun l => (⟨l⟩ : String))
  let i := commonLen sl pl
  let relList := List.replicate (sl.length - i) ".." ++ pl.drop i
  if relList = [] then "."
  else ⟨joinSlash (relList.map String.data)⟩

/-! ## Filesystem state and action traces

The filesystem is a list of regular-file paths plus a list of directory paths.
Directories are tracked only for the `os.path.isdir` / `os.path.exists` tests on
the reconstructed roots; the `pathlib.rglob` scans are modelled over the regular
files (the plugin counts and renames the delivered media files).  `os.rename` is
modelled as a path replacement; the `FileNotFoundError` it would raise on a
missing source is not modelled (both call sites rename paths that exist: the
freshly delivered file, and paths produced by the `rglob` scan). -/

structure FS where
  files : List String
  dirs : List String
  deriving Repr, DecidableEq

def FS.isdir (fs : FS) (p : String) : Bool :=
  fs.dirs.contains p

def FS.pathExists (fs : FS) (p : String) : Bool :=
  fs.files.contains p || fs.dirs.contains p

def FS.rename (fs : FS) (src dst : String) : FS :=
  { fs with files := fs.files.map (fun p => if p = src then dst else p) }

/-- `pathlib.Path(root).rglob(pat)` membership test for a file path `p`:
`p` lies strictly under `root` and its final component matches the pattern.
(CPython's `pathlib` glob compiles each pattern component with
`fnmatch.translate` and does **not** apply the `glob`-module rule that hides
dot-files, so hidden names and hidden directories are matched/traversed.) -/
def rglobMatches (root : String) (pat : String → Bool) (p : String) : Bool :=
  (root ++ "/").data.isPrefixOf p.data && pat (posix_basename p)

/-- `fnmatch` test for the pattern `[!.]*.*`: one non-dot character, then
anything containing a further dot. -/
def nonDotMatch (name : String) : Bool :=
  match name.data with
  | [] => false
  | c :: rest => (c != '.') && rest.contains '.'

/-- `fnmatch` test for the pattern `*.tmp`: any name ending in `.tmp`
(`*` may match the empty string, and `pathlib` does not exclude hidden names). -/
def tmpMatch (name : String) : Bool :=
  charsSuffix ".tmp".data name.data

/-- The file paths produced by `list(pathlib.Path(root).rglob(pat))`,
in filesystem order. -/
def rglobList (fs : FS) (root : String) (pat : String → Bool) : List String :=
  fs.files.filter (rglobMatches root pat)

/-- `len(list(pathlib.Path(root).rglob('[!.]*.*')))`. -/
def nonDotCount (fs : FS) (root : String) : Nat :=
  (rglobList fs root nonDotMatch).length

/-- Externally visible effects of one `import_mode` run.  `nameError var` records
the `NameError` raised when evaluating an undefined variable (which aborts the
function); `logError` records the validation-failure log-and-return.  Ordinary
informational logging is not modelled. -/
inductive Action where
  | rename (src dst : String)
  | chmod (p : String)
  | getQueue
  | scanWithId (path id : String)
  | scanPath (path : String)
  | nameError (var : String)
  | logError
  deriving Repr, DecidableEq

/-- One record of the remote download queue (`queue['records'][i]`); a missing or
empty `outputPath` is represented by `""` (both are falsy in Python), a missing
`downloadId`/`title` by `none`. -/
structure QueueRecord where
  outputPath : String
  downloadId : Option String
  title : Option String
  deriving Repr, DecidableEq

/-- Python truthiness of `item.get(...)` for an optional string:
`None` and `""` are falsy. -/
def optTruthy : Option String → Bool
  | some s => s ≠ ""
  | none => false

/-! ## Queue matching (`import_mode` scan loops) -/

/-- The match rule applied to a single usable queue record (sonarr
`plugin.py:339-345`, radarr `plugin.py:331-338`): directory deliveries compare
full basenames, file deliveries compare extension-stripped basenames. -/
def recordMatches (is_dir : Bool) (dest_basename : String) (r : QueueRecord) : Bool :=
  let ob := posix_basename r.outputPath
  if is_dir then dest_basename == ob
  else splitextFst dest_basename == splitextFst ob

/-- The sonarr queue scan (`notify_sonarr/plugin.py:330-350`): skip records with
falsy `outputPath`, stop at the first matching record. -/
def sonarr_find (is_dir : Bool) (dest_basename : String) :
    List QueueRecord → Option QueueRecord
  | [] => none
  | r :: rest =>
    if r.outputPath = "" then sonarr_find is_dir dest_basename rest
    else if recordMatches is_dir dest_basename r then some r
    else sonarr_find is_dir dest_basename rest

/-- Result of the radarr queue scan: on the first matching record, the record is
usable when the full basenames also agree (`extension_match`), otherwise the
extension-mismatch removal branch runs. -/
inductive RMatch where
  | noMatch
  | matched (r : QueueRecord)
  | extMismatch (r : QueueRecord)
  deriving Repr, DecidableEq

/-- The radarr queue scan (`notify_radarr/plugin.py:320-362`): like sonarr's, but
a file match with differing full basenames clears `extension_match` and the loop
then enters the removal branch instead of taking the record's `downloadId`. -/
def radarr_find (is_dir : Bool) (dest_basename : String) :
    List QueueRecord → RMatch
  | [] => .noMatch
  | r :: rest =>
    if r.outputPath = "" then radarr_find is_dir dest_basename rest
    else if recordMatches is_dir dest_basename r then
      if is_dir then .matched r
      else if dest_basename ≠ posix_basename r.outputPath then .extMismatch r
      else .matched r
    else radarr_find is_dir dest_basename rest

/-! ## Import dispatch -/

/-- Actions of the sonarr tail after the queue fetch
(`notify_sonarr/plugin.py:325-369`): queue scan, the directory double-import
suppression (`download_id and is_dir` returns without a scan call), then
`DownloadedEpisodesScan` with or without `downloadClientId`. -/
def sonarr_dispatch (is_dir : Bool) (dest_basename abspath_dest : String)
    (queue : List QueueRecord) : List Action :=
  Action.getQueue ::
    match sonarr_find is_dir dest_basename queue with
    | some r =>
      if optTruthy r.downloadId ∧ is_dir then []
      else if optTruthy r.downloadId then
        [.scanWithId abspath_dest (r.downloadId.getD "")]
      else [.scanPath abspath_dest]
    | none => [.scanPath abspath_dest]

/-- Actions of the radarr tail after the queue fetch
(`notify_radarr/plugin.py:315-374`).  In the extension-mismatch branch the call
`api.del_queue_bulk(data=data, ...)` evaluates the undefined name `data`, so a
`NameError` is raised before any removal request is sent and `import_mode`
aborts: no queue-removal and no scan request is ever issued on this path. -/
def radarr_dispatch (is_dir : Bool) (dest_basename abspath_dest : String)
    (queue : List QueueRecord) : List Action :=
  Action.getQueue ::
    match radarr_find is_dir dest_basename queue with
    | .extMismatch _ => [.nameError "data"]
    | .matched r =>
      if optTruthy r.downloadId then
        [.scanWithId abspath_dest (r.downloadId.getD "")]
      else [.scanPath abspath_dest]
    | .noMatch => [.scanPath abspath_dest]

/-! ## The delay predicates (`files_remaining` logic) -/

/-- Sonarr's delay test (`notify_sonarr/plugin.py:300-306`):
`files_remaining = sourcefile_count if sources_removed else
sourcefile_count - destfile_count`, delay iff `files_remaining > 0`
(Python integer subtraction, hence `Int`). -/
def sonarr_delay_pred (sc dc : Nat) (sources_removed : Bool) : Bool :=
  (if sources_removed then (sc : Int) else (sc : Int) - (dc : Int)) > 0

/-- Radarr's delay test (`notify_radarr/plugin.py:295`):
`destfile_count < sourcefile_count or (sources_removed and sourcefile_count != 0)`. -/
def radarr_delay_pred (sc dc : Nat) (sources_removed : Bool) : Bool :=
  decide (dc < sc) || (sources_removed && decide (sc ≠ 0))

/-- The specification's `remaining` quantity ("If `sourcesRemoved` is true:
remaining = `srcCount`. Else: remaining = `srcCount − dstCount`."). -/
def spec_remaining (sc dc : Nat) (sources_removed : Bool) : Int :=
  if sources_removed then (sc : Int) else (sc : Int) - (dc : Int)

/-! ## The `import_mode` functions -/

/-- The reconstructed source root
`abspath_source = os.path.join(intermediate_root, relpath(source_path, intermediate_root).split('/')[0])`
(sonarr `plugin.py:266,269`, radarr `plugin.py:264,268`). -/
def src_root (cwd source_path intermediate_root : String) : String :=
  posix_join2 intermediate_root
    ((splitSlashStr (posix_relpath cwd source_path intermediate_root)).headD "")

/-- The first path component of `dest_path` relative to `import_root`
(`dest_basename`, sonarr `plugin.py:267`, radarr `plugin.py:265`). -/
def dest_base (cwd dest_path import_root : String) : String :=
  (splitSlashStr (posix_relpath cwd dest_path import_root)).headD ""

/-- The reconstructed destination root `abspath_dest` (radarr `plugin.py:269`). -/
def dest_root (cwd dest_path import_root : String) : String :=
  posix_join2 import_root (dest_base cwd dest_path import_root)

/-- Sonarr's reconstructed destination root, which additionally strips every
backslash: `abspath_dest = abspath_dest.replace('\\', '')`
(sonarr `plugin.py:270-271`). -/
def dest_root_s (cwd dest_path import_root : String) : String :=
  ⟨(dest_root cwd dest_path import_root).data.filter (· ≠ '\\')⟩

/-- The hide/unhide delay section shared verbatim by both plugins
(sonarr `plugin.py:306-320`, radarr `plugin.py:295-310`), entered once the delay
predicate has been decided.  `delay = true`: rename `dest_path` to
`dest_path ++ ".tmp"` unless that name already exists, and return (`none`
continuation).  `delay = false`: rename every `rglob('*.tmp')` file under
`abspath_dest` to its `splitext`-stripped name, chmod the destination root, and
continue. -/
def delay_section (delay : Bool) (dest_path abspath_dest : String) (fs : FS) :
    (List Action × FS) × Bool :=
  if delay then
    let newname := dest_path ++ ".tmp"
    if fs.pathExists newname then (([], fs), false)
    else (([.rename dest_path newname], fs.rename dest_path newname), false)
  else
    let tmpList := rglobList fs abspath_dest tmpMatch
    let fs' := tmpList.foldl (fun st p => st.rename p (splitextFst p)) fs
    ((tmpList.map (fun p => Action.rename p (splitextFst p)) ++ [.chmod abspath_dest],
      fs'), true)

/-- `import_mode` of `notify_sonarr/plugin.py` (lines 261-380) as a state/trace
function.  `cwd` is the working directory consulted by `os.path.relpath` for
non-absolute arguments.  Returns the action trace and the final filesystem. -/
def sonarr_import_mode (cwd source_path dest_path intermediate_root import_root : String)
    (sources_removed : Bool) (queue : List QueueRecord) (fs : FS) :
    List Action × FS :=
  let dest_basename := dest_base cwd dest_path import_root
  let abspath_source := src_root cwd source_path intermediate_root
  let abspath_dest := dest_root_s cwd dest_path import_root
  if ¬ strContains source_path abspath_source then ([.logError], fs)
  else if ¬ strContains dest_path abspath_dest then ([.logError], fs)
  else
    let is_dir := fs.isdir abspath_source
    if is_dir = true ∧ intermediate_root ≠ import_root then
      let sc := nonDotCount fs abspath_source
      let dc := nonDotCount fs abspath_dest
      let ((tr, fs'), cont) :=
        delay_section (sonarr_delay_pred sc dc sources_removed) dest_path abspath_dest fs
      if cont then
        (tr ++ sonarr_dispatch is_dir dest_basename abspath_dest queue, fs')
      else (tr, fs')
    else (sonarr_dispatch is_dir dest_basename abspath_dest queue, fs)

/-- `import_mode` of `notify_radarr/plugin.py` (lines 260-385).  Differs from the
sonarr version in: no backslash stripping of `abspath_dest`, a single combined
validation test, the `radarr_delay_pred` formulation of the delay test, and the
radarr queue scan / dispatch (extension-mismatch removal branch, no directory
suppression). -/
def radarr_import_mode (cwd source_path dest_path intermediate_root import_root : String)
    (sources_removed : Bool) (queue : List QueueRecord) (fs : FS) :
    List Action × FS :=
  let dest_basename := dest_base cwd dest_path import_root
  let abspath_source := src_root cwd source_path intermediate_root
  let abspath_dest := dest_root cwd dest_path import_root
  if ¬ strContains source_path abspath_source ∨ ¬ strContains dest_path abspath_dest then
    ([.logError], fs)
  else
    let is_dir := fs.isdir abspath_source
    if is_dir = true ∧ intermediate_root ≠ import_root then
      let sc := nonDotCount fs abspath_source
      let dc := nonDotCount fs abspath_dest
      let ((tr, fs'), cont) :=
        delay_section (radarr_delay_pred sc dc sources_removed) dest_path abspath_dest fs
      if cont then
        (tr ++ radarr_dispatch is_dir dest_basename abspath_dest queue, fs')
      else (tr, fs')
    else (radarr_dispatch is_dir dest_basename abspath_dest queue, fs)

/-! ## The rarbg_fix worker pipeline (`source/rarbg_fix/plugin.py`) -/

/-- One ffprobe stream record, with the fields inspected by
`PluginStreamMapper.test_stream_needs_processing`. -/
structure FStream where
  codec_type : String
  codec_name : String
  deriving Repr, DecidableEq

/-- The ffprobe result fields used by the plugin: `format.format_name` (a
comma-separated string such as `"mov,mp4,m4a,3gp,3g2,mj2"`), `format.tags.title`
(defaulted to `""`), and the stream records. -/
structure ProbeData where
  format_name : String
  title : String
  streams : List FStream
  deriving Repr, DecidableEq

/-- `PluginStreamMapper.test_stream_needs_processing`
(`rarbg_fix/plugin.py:29-43`): the stream is a video stream in HEVC/H.265. -/
def test_stream_needs_processing (s : FStream) : Bool :=
  (["video"] : List String).contains (strLower s.codec_type) &&
    (["hevc", "h265"] : List String).contains (strLower s.codec_name)

/-- Modelled from the spec: `StreamMapper.streams_need_processing` lives in the
vendored `rarbg_fix/lib/ffmpeg` helper, which is not under `src/`; per the
spec's "detects a specific malformed video container signature" and the
plugin's use of the mapper it reports whether any probed stream satisfies
`test_stream_needs_processing`. -/
def streams_need_processing (p : ProbeData) : Bool :=
  p.streams.any test_stream_needs_processing

/-- Which `parse_progress` function is installed as
`data['command_progress_parser']`. -/
inductive ProgressKind where
  | unset
  | ffmpegProgress
  | mkvProgress
  deriving Repr, DecidableEq

/-- The fields of the worker `data` object read or written by
`on_worker_process`.  `pass_num` is `none` when the key is absent
(`data.get('pass_num', 1)` then defaults it to `1`); `repeatFlag` is the
`repeat` key. -/
structure WorkerData where
  file_in : String
  file_out : String
  pass_num : Option Nat
  repeatFlag : Bool
  exec_command : List String
  progressKind : ProgressKind
  deriving Repr, DecidableEq

/-- `basename = data['file_out'].rpartition('.')[0].rpartition('-WORKING-')[0]`
(`rarbg_fix/plugin.py:133`). -/
def worker_basename (d : WorkerData) : String :=
  rpartitionHead (rpartitionHead d.file_out ".") "-WORKING-"

/-- `on_worker_process` of `rarbg_fix/plugin.py` (lines 105-270) as a function of
the probe outcome and the incoming `data` object.  `probeOk = false` models a
failed `probe.file(abspath)` (early return, `data` unchanged).  Pass 1 runs the
mp4/HEVC/RARBG gate tests and emits the ffmpeg stream-split command; passes 2
and 3 emit the mkvmerge video/audio remux commands; pass 4 emits the ffmpeg
recombine command with `repeat = False`.  Each early `return data` skips the
final `command_progress_parser` assignment. -/
def on_worker_process (probeOk : Bool) (probe : ProbeData) (d : WorkerData) :
    WorkerData :=
  let basename := worker_basename d
  let pass_num := d.pass_num.getD 1
  if ¬ probeOk then d
  else if pass_num = 1 then
    if ¬ strContains probe.format_name "mp4" then d
    else if ¬ streams_need_processing probe then d
    else if ¬ strContains (strLower probe.title) "rarbg" then d
    else
      { d with
        repeatFlag := true
        pass_num := some 2
        file_out := basename ++ ".rarbg_video.mkv"
        exec_command := ["ffmpeg", "-y", "-i", d.file_in, "-map", "0:v",
          "-map", "0:s?", "-c:v", "copy", basename ++ ".rarbg_video.mkv",
          "-map", "0:a", "-c:a", "copy", basename ++ ".rarbg_audio.mkv"]
        progressKind := .ffmpegProgress }
  else if pass_num = 2 then
    { d with
      repeatFlag := true
      pass_num := some 3
      file_in := basename ++ ".rarbg_video.mkv"
      file_out := basename ++ ".rarbg_video_fixed.mkv"
      exec_command := ["mkvmerge", "-A", "-S", "-o",
        basename ++ ".rarbg_video_fixed.mkv", basename ++ ".rarbg_video.mkv"]
      progressKind := .mkvProgress }
  else if pass_num = 3 then
    { d with
      repeatFlag := true
      pass_num := some 4
      file_in := basename ++ ".rarbg_audio.mkv"
      file_out := basename ++ ".rarbg_audio_fixed.mkv"
      exec_command := ["mkvmerge", "-D", "-o",
        basename ++ ".rarbg_audio_fixed.mkv", basename ++ ".rarbg_audio.mkv"]
      progressKind := .mkvProgress }
  else if pass_num = 4 then
    { d with
      repeatFlag := false
      file_out := basename ++ ".rarbg_fixed.mp4"
      exec_command := ["ffmpeg", "-y", "-i", basename ++ ".rarbg_video_fixed.mkv",
        "-i", basename ++ ".rarbg_audio_fixed.mkv", "-c", "copy",
        "-map", "0", "-map", "1", basename ++ ".rarbg_fixed.mp4"]
      progressKind := .ffmpegProgress }
  else
    { d with progressKind := .ffmpegProgress }

/-! ## Supporting lemmas -/

lemma lastIdxOf_eq_none_of_not_mem {c : Char} {l : List Char} (h : c ∉ l) :
    lastIdxOf c l = none := by
  induction l with
  | nil => rfl
  | cons x xs ih =>
    simp only [List.mem_cons, not_or] at h
    have hx : ¬ x = c := fun e => h.1 e.symm
    simp [lastIdxOf, ih h.2, hx]

lemma lastIdxOf_append_of_not_mem {c : Char} {b : List Char} (a : List Char)
    (h : c ∉ b) : lastIdxOf c (a ++ b) = lastIdxOf c a := by
  induction a with
  | nil => simpa using lastIdxOf_eq_none_of_not_mem h
  | cons x xs ih => simp only [List.cons_append, lastIdxOf, List.append_eq, ih]

lemma lastIdxOf_append_of_some {c : Char} {b : List Char} {j : Nat} (a : List Char)
    (h : lastIdxOf c b = some j) :
    lastIdxOf c (a ++ b) = some (a.length + j) := by
  induction a with
  | nil => simpa using h
  | cons x xs ih =>
    simp only [List.cons_append, lastIdxOf, List.append_eq, ih, List.length_cons]
    congr 1
    omega

lemma lastIdxOf_lt_length {c : Char} {l : List Char} {i : Nat}
    (h : lastIdxOf c l = some i) : i < l.length := by
  induction l generalizing i with
  | nil => simp [lastIdxOf] at h
  | cons x xs ih =>
    simp only [lastIdxOf] at h
    rcases hx : lastIdxOf c xs with _ | j <;> simp only [hx] at h
    · split at h
      · cases h; simp
      · cases h
    · cases h
      have := ih hx
      simp only [List.length_cons]
      omega

/-- `posix_basename` when the path has no slash. -/
lemma posix_basename_data_none (p : String) (hs : lastIdxOf '/' p.data = none) :
    (posix_basename p).data = p.data := by
  unfold posix_basename
  rw [hs]

/-- `posix_basename` when the last slash sits at index `i`. -/
lemma posix_basename_data_some (p : String) {i : Nat}
    (hs : lastIdxOf '/' p.data = some i) :
    (posix_basename p).data = p.data.drop (i + 1) := by
  unfold posix_basename
  rw [hs]

/-! ## Claim C10: hide/unhide round trip -/

/-- C10 [counterexample]: the claim "for every path p, appending the `.tmp`
suffix and then applying splitext yields exactly p" fails at the concrete path
`"."`: the hidden name `"..tmp"` is all leading dots, so `splitext` strips
nothing and the round trip returns `"..tmp"`, not `"."`. -/
theorem C10_counterexample : splitextFst ("." ++ ".tmp") ≠ "." := by decide

/-- C10 [amended]: for every path whose final component contains at least one
non-dot character (every real media file name), appending the `.tmp` suffix used
by the hide step and then applying the un-hide step's `splitext` stripping yields
exactly the original path, so a delayed file is restored under its original
name. -/
theorem C10_hide_unhide_inverse (p : String)
    (h : (posix_basename p).data.any (fun c => c ≠ '.') = true) :
    splitextFst (p ++ ".tmp") = p := by
  have hdata : (p ++ ".tmp").data = p.data ++ ".tmp".data := String.data_append p ".tmp"
  have hslash : lastIdxOf '/' (p.data ++ ".tmp".data) = lastIdxOf '/' p.data :=
    lastIdxOf_append_of_not_mem p.data (by decide)
  have hdot : lastIdxOf '.' (p.data ++ ".tmp".data) = some (p.data.length + 0) :=
    lastIdxOf_append_of_some p.data (by decide)
  rcases hs : lastIdxOf '/' p.data with _ | i
  · rw [posix_basename_data_none p hs] at h
    simp only [splitextFst, hdata, hslash, hs, Nat.add_zero, Nat.sub_zero, List.drop_zero,
      hdot, List.take_left]
    rw [if_pos ⟨Nat.zero_le _, by simpa using h⟩]
  · rw [posix_basename_data_some p hs] at h
    have hle : i + 1 ≤ p.data.length := lastIdxOf_lt_length hs
    simp only [splitextFst, hdata, hslash, hs, Nat.add_zero, hdot,
      List.drop_append_of_le_length hle, List.take_left]
    rw [@List.take_left' Char (p.data.drop (i + 1)) (".tmp".data) (p.data.length - (i + 1))
      (show (p.data.drop (i + 1)).length = p.data.length - (i + 1) by simp)]
    rw [if_pos ⟨hle, by simpa using h⟩]

/-- C10 [witness]: the round trip at a typical delivered file path. -/
theorem C10_witness : splitextFst ("/imp/Show/ep1.mkv" ++ ".tmp") = "/imp/Show/ep1.mkv" :=
  C10_hide_unhide_inverse "/imp/Show/ep1.mkv" (by decide)

/-! ## Claim C4: the delay predicate -/

/-- C4: for a directory delivery with distinct roots, both notifier plugins
decide to delay by the same predicate, and it holds exactly when the
specification's `remaining` (srcCount when sourcesRemoved, srcCount − dstCount
otherwise) is positive. -/
theorem C4_delay_predicate (sc dc : Nat) (sources_removed : Bool) :
    radarr_delay_pred sc dc sources_removed = sonarr_delay_pred sc dc sources_removed ∧
      (sonarr_delay_pred sc dc sources_removed = true ↔
        spec_remaining sc dc sources_removed > 0) := by
  constructor
  · cases sources_removed <;> rw [Bool.eq_iff_iff] <;>
      simp [radarr_delay_pred, sonarr_delay_pred] <;> omega
  · cases sources_removed <;> simp [sonarr_delay_pred, spec_remaining]

/-! ## Claim C7: first-match queue scanning -/

/-- The predicate a queue record must satisfy to be the scan's match: a truthy
`outputPath` and the delivery-type match rule. -/
def queue_record_hits (is_dir : Bool) (dest_basename : String) (r : QueueRecord) : Bool :=
  (r.outputPath != "") && recordMatches is_dir dest_basename r

lemma sonarr_find_eq_find? (is_dir : Bool) (db : String) (q : List QueueRecord) :
    sonarr_find is_dir db q = q.find? (queue_record_hits is_dir db) := by
  induction q with
  | nil => rfl
  | cons r rest ih =>
    by_cases h : r.outputPath = ""
    · have hb : (r.outputPath != "") = false := by simp [h]
      simp [sonarr_find, List.find?, queue_record_hits, h, hb, ih]
    · have hb : (r.outputPath != "") = true := by simp [h]
      by_cases hm : recordMatches is_dir db r = true
      · simp [sonarr_find, List.find?, queue_record_hits, h, hb, hm]
      · simp [sonarr_find, List.find?, queue_record_hits, h, hb, hm, ih]

lemma radarr_find_eq_find? (is_dir : Bool) (db : String) (q : List QueueRecord) :
    radarr_find is_dir db q =
      match q.find? (queue_record_hits is_dir db) with
      | none => RMatch.noMatch
      | some r =>
        if is_dir then RMatch.matched r
        else if db ≠ posix_basename r.outputPath then RMatch.extMismatch r
        else RMatch.matched r := by
  induction q with
  | nil => rfl
  | cons r rest ih =>
    by_cases h : r.outputPath = ""
    · have hb : (r.outputPath != "") = false := by simp [h]
      simp [radarr_find, List.find?, queue_record_hits, h, hb, ih]
    · have hb : (r.outputPath != "") = true := by simp [h]
      by_cases hm : recordMatches is_dir db r = true
      · simp [radarr_find, List.find?, queue_record_hits, h, hb, hm]
      · simp [radarr_find, List.find?, queue_record_hits, h, hb, hm, ih]

/-- C7: both queue scans process records in order, skip records whose
`outputPath` is empty or missing, apply exact-basename matching for directory
deliveries and extension-stripped matching for file deliveries, and stop at the
first matching record (`List.find?` semantics), so with several matching records
only the earliest determines `downloadId` and `title`. -/
theorem C7_first_match_wins (is_dir : Bool) (db : String) (q : List QueueRecord) :
    sonarr_find is_dir db q = q.find? (queue_record_hits is_dir db) ∧
    radarr_find is_dir db q =
      (match q.find? (queue_record_hits is_dir db) with
       | none => RMatch.noMatch
       | some r =>
         if is_dir then RMatch.matched r
         else if db ≠ posix_basename r.outputPath then RMatch.extMismatch r
         else RMatch.matched r) ∧
    (∀ r : QueueRecord, recordMatches true db r = (db == posix_basename r.outputPath)) ∧
    (∀ r : QueueRecord, recordMatches false db r =
      (splitextFst db == splitextFst (posix_basename r.outputPath))) :=
  ⟨sonarr_find_eq_find? is_dir db q, radarr_find_eq_find? is_dir db q,
    fun _ => rfl, fun _ => rfl⟩

/-! ## Claim C1: the extension-mismatch removal branch -/

/-- C1: evaluating the radarr `import_mode` at a file delivery whose queue match
has equal extension-stripped basenames but unequal full basenames.  The removal
branch evaluates the undefined name `data` (`notify_radarr/plugin.py:354`), so
the run aborts with a `NameError` after the queue fetch: no queue-removal
request is issued and no import-scan request follows.  The sonarr plugin has no
removal branch at all and issues an ID-bound import-scan on the same
delivery. -/
theorem C1_extension_mismatch_crash :
    radarr_import_mode "/" "/inter/Movie.mkv" "/imp/Movie.mkv" "/inter" "/imp" false
        [⟨"/dl/Movie.mp4", some "ID1", some "Movie"⟩]
        ⟨["/inter/Movie.mkv", "/imp/Movie.mkv"], ["/inter", "/imp"]⟩ =
      ([Action.getQueue, Action.nameError "data"],
        ⟨["/inter/Movie.mkv", "/imp/Movie.mkv"], ["/inter", "/imp"]⟩) ∧
    sonarr_import_mode "/" "/inter/Movie.mkv" "/imp/Movie.mkv" "/inter" "/imp" false
        [⟨"/dl/Movie.mp4", some "ID1", some "Movie"⟩]
        ⟨["/inter/Movie.mkv", "/imp/Movie.mkv"], ["/inter", "/imp"]⟩ =
      ([Action.getQueue, Action.scanWithId "/imp/Movie.mkv" "ID1"],
        ⟨["/inter/Movie.mkv", "/imp/Movie.mkv"], ["/inter", "/imp"]⟩) := by
  decide

/-! ## Claim C9: the four-pass worker pipeline -/

/-- C9 [counterexample]: the pass-1 command is not fully determined by the pass
integer and the file basename: two worker states with the same `file_out` (hence
the same basename) and the same pass but different `file_in` produce different
commands, because the ffmpeg split command embeds `file_in` as its input. -/
theorem C9_counterexample :
    (worker_basename ⟨"/w/in1.mp4", "/w/f-WORKING-1.mp4", none, false, [], .unset⟩ =
      worker_basename ⟨"/w/in2.mp4", "/w/f-WORKING-1.mp4", none, false, [], .unset⟩) ∧
    (⟨"/w/in1.mp4", "/w/f-WORKING-1.mp4", none, false, [], .unset⟩ :
        WorkerData).pass_num.getD 1 = 1 ∧
    (on_worker_process true ⟨"mov,mp4,m4a,3gp,3g2,mj2", "x265-RARBG", [⟨"video", "hevc"⟩]⟩
        ⟨"/w/in1.mp4", "/w/f-WORKING-1.mp4", none, false, [], .unset⟩).exec_command ≠
      (on_worker_process true ⟨"mov,mp4,m4a,3gp,3g2,mj2", "x265-RARBG", [⟨"video", "hevc"⟩]⟩
        ⟨"/w/in2.mp4", "/w/f-WORKING-1.mp4", none, false, [], .unset⟩).exec_command := by
  decide

/-- C9 [amended]: the worker runner is a fixed four-pass pipeline driven by the
externally supplied pass counter: pass 1 (when the mp4/HEVC/RARBG gates pass)
emits the ffmpeg stream-split command and sets `pass_num := 2` with
`repeat := true`; pass 2 the mkvmerge video remux with `pass_num := 3`,
`repeat := true`; pass 3 the mkvmerge audio remux with `pass_num := 4`,
`repeat := true`; pass 4 the ffmpeg recombine command with `repeat := false`.
For passes 2–4 the command is fully determined by the pass integer and the file
basename; the pass-1 command additionally embeds the incoming `file_in` path as
the split input. -/
theorem C9_four_pass_pipeline (probe : ProbeData) (d : WorkerData) :
    (d.pass_num.getD 1 = 1 →
      strContains probe.format_name "mp4" = true →
      streams_need_processing probe = true →
      strContains (strLower probe.title) "rarbg" = true →
      on_worker_process true probe d =
        { d with
          repeatFlag := true
          pass_num := some 2
          file_out := worker_basename d ++ ".rarbg_video.mkv"
          exec_command := ["ffmpeg", "-y", "-i", d.file_in, "-map", "0:v",
            "-map", "0:s?", "-c:v", "copy", worker_basename d ++ ".rarbg_video.mkv",
            "-map", "0:a", "-c:a", "copy", worker_basename d ++ ".rarbg_audio.mkv"]
          progressKind := .ffmpegProgress }) ∧
    (d.pass_num.getD 1 = 2 →
      on_worker_process true probe d =
        { d with
          repeatFlag := true
          pass_num := some 3
          file_in := worker_basename d ++ ".rarbg_video.mkv"
          file_out := worker_basename d ++ ".rarbg_video_fixed.mkv"
          exec_command := ["mkvmerge", "-A", "-S", "-o",
            worker_basename d ++ ".rarbg_video_fixed.mkv",
            worker_basename d ++ ".rarbg_video.mkv"]
          progressKind := .mkvProgress }) ∧
    (d.pass_num.getD 1 = 3 →
      on_worker_process true probe d =
        { d with
          repeatFlag := true
          pass_num := some 4
          file_in := worker_basename d ++ ".rarbg_audio.mkv"
          file_out := worker_basename d ++ ".rarbg_audio_fixed.mkv"
          exec_command := ["mkvmerge", "-D", "-o",
            worker_basename d ++ ".rarbg_audio_fixed.mkv",
            worker_basename d ++ ".rarbg_audio.mkv"]
          progressKind := .mkvProgress }) ∧
    (d.pass_num.getD 1 = 4 →
      on_worker_process true probe d =
        { d with
          repeatFlag := false
          file_out := worker_basename d ++ ".rarbg_fixed.mp4"
          exec_command := ["ffmpeg", "-y", "-i",
            worker_basename d ++ ".rarbg_video_fixed.mkv",
            "-i", worker_basename d ++ ".rarbg_audio_fixed.mkv",
            "-c", "copy", "-map", "0", "-map", "1",
            worker_basename d ++ ".rarbg_fixed.mp4"]
          progressKind := .ffmpegProgress }) := by
  refine ⟨fun h1 hm hs hr => ?_, fun h2 => ?_, fun h3 => ?_, fun h4 => ?_⟩
  · simp [on_worker_process, h1, hm, hs, hr]
  · simp [on_worker_process, h2]
  · simp [on_worker_process, h3]
  · simp [on_worker_process, h4]

/-- C9 [witness]: the pipeline applied at a concrete pass-2 worker state. -/
theorem C9_witness :
    on_worker_process true
        ⟨"mov,mp4,m4a,3gp,3g2,mj2", "x265-RARBG", [⟨"video", "hevc"⟩]⟩
        ⟨"/w/in1.mp4", "/w/f-WORKING-1.mp4", some 2, false, [], .unset⟩ =
      { (⟨"/w/in1.mp4", "/w/f-WORKING-1.mp4", some 2, false, [], .unset⟩ : WorkerData) with
        repeatFlag := true
        pass_num := some 3
        file_in := worker_basename ⟨"/w/in1.mp4", "/w/f-WORKING-1.mp4", some 2, false, [], .unset⟩
          ++ ".rarbg_video.mkv"
        file_out := worker_basename ⟨"/w/in1.mp4", "/w/f-WORKING-1.mp4", some 2, false, [], .unset⟩
          ++ ".rarbg_video_fixed.mkv"
        exec_command := ["mkvmerge", "-A", "-S", "-o",
          worker_basename ⟨"/w/in1.mp4", "/w/f-WORKING-1.mp4", some 2, false, [], .unset⟩
            ++ ".rarbg_video_fixed.mkv",
          worker_basename ⟨"/w/in1.mp4", "/w/f-WORKING-1.mp4", some 2, false, [], .unset⟩
            ++ ".rarbg_video.mkv"]
        progressKind := .mkvProgress } :=
  (C9_four_pass_pipeline
    ⟨"mov,mp4,m4a,3gp,3g2,mj2", "x265-RARBG", [⟨"video", "hevc"⟩]⟩
    ⟨"/w/in1.mp4", "/w/f-WORKING-1.mp4", some 2, false, [], .unset⟩).2.1 rfl

/-! ## Claim C2: path validation -/

lemma delay_section_true_eq (dest_path ad : String) (fs : FS) :
    delay_section true dest_path ad fs =
      (if fs.pathExists (dest_path ++ ".tmp")
       then (([], fs), false)
       else (([Action.rename dest_path (dest_path ++ ".tmp")],
              fs.rename dest_path (dest_path ++ ".tmp")), false)) := rfl

lemma delay_section_false_eq (dest_path ad : String) (fs : FS) :
    delay_section false dest_path ad fs =
      (((rglobList fs ad tmpMatch).map (fun p => Action.rename p (splitextFst p)) ++
          [Action.chmod ad],
        (rglobList fs ad tmpMatch).foldl (fun st p => st.rename p (splitextFst p)) fs),
       true) := rfl

lemma sonarr_dispatch_ne_logError (d : Bool) (db ad : String) (q : List QueueRecord) :
    sonarr_dispatch d db ad q ≠ [Action.logError] := by
  simp [sonarr_dispatch]

lemma radarr_dispatch_ne_logError (d : Bool) (db ad : String) (q : List QueueRecord) :
    radarr_dispatch d db ad q ≠ [Action.logError] := by
  simp [radarr_dispatch]

lemma map_renames_chmod_ne (l : List String) (g : String → String) (ad : String)
    (rest : List Action) :
    l.map (fun p => Action.rename p (g p)) ++ Action.chmod ad :: rest ≠
      [Action.logError] := by
  cases l <;> simp

/-- If both containment tests pass, the sonarr run does not produce the
validation-failure trace. -/
lemma sonarr_import_mode_accepts
    (cwd source_path dest_path intermediate_root import_root : String)
    (sources_removed : Bool) (queue : List QueueRecord) (fs : FS)
    (h1 : strContains source_path (src_root cwd source_path intermediate_root) = true)
    (h2 : strContains dest_path (dest_root_s cwd dest_path import_root) = true) :
    (sonarr_import_mode cwd source_path dest_path intermediate_root import_root
      sources_removed queue fs).1 ≠ [Action.logError] := by
  simp only [sonarr_import_mode]
  rw [if_neg (not_not_intro h1), if_neg (not_not_intro h2)]
  by_cases hdir : fs.isdir (src_root cwd source_path intermediate_root) = true ∧
      intermediate_root ≠ import_root
  · rw [if_pos hdir]
    cases hp : sonarr_delay_pred (nonDotCount fs (src_root cwd source_path intermediate_root))
        (nonDotCount fs (dest_root_s cwd dest_path import_root)) sources_removed
    · simp only [delay_section_false_eq]
      simp only [if_true]
      rw [List.append_assoc, List.singleton_append]
      exact map_renames_chmod_ne _ _ _ _
    · simp only [delay_section_true_eq]
      by_cases he : fs.pathExists (dest_path ++ ".tmp") = true
      · rw [if_pos he]
        simp
      · rw [if_neg he]
        simp
  · rw [if_neg hdir]
    simpa using sonarr_dispatch_ne_logError _ _ _ queue

/-- If both containment tests pass, the radarr run does not produce the
validation-failure trace. -/
lemma radarr_import_mode_accepts
    (cwd source_path dest_path intermediate_root import_root : String)
    (sources_removed : Bool) (queue : List QueueRecord) (fs : FS)
    (h1 : strContains source_path (src_root cwd source_path intermediate_root) = true)
    (h2 : strContains dest_path (dest_root cwd dest_path import_root) = true) :
    (radarr_import_mode cwd source_path dest_path intermediate_root import_root
      sources_removed queue fs).1 ≠ [Action.logError] := by
  simp only [radarr_import_mode]
  rw [if_neg (show ¬(¬ strContains source_path (src_root cwd source_path intermediate_root) ∨
      ¬ strContains dest_path (dest_root cwd dest_path import_root)) by simp [h1, h2])]
  by_cases hdir : fs.isdir (src_root cwd source_path intermediate_root) = true ∧
      intermediate_root ≠ import_root
  · rw [if_pos hdir]
    cases hp : radarr_delay_pred (nonDotCount fs (src_root cwd source_path intermediate_root))
        (nonDotCount fs (dest_root cwd dest_path import_root)) sources_removed
    · simp only [delay_section_false_eq]
      simp only [if_true]
      rw [List.append_assoc, List.singleton_append]
      exact map_renames_chmod_ne _ _ _ _
    · simp only [delay_section_true_eq]
      by_cases he : fs.pathExists (dest_path ++ ".tmp") = true
      · rw [if_pos he]
        simp
      · rw [if_neg he]
        simp
  · rw [if_neg hdir]
    simpa using radarr_dispatch_ne_logError _ _ _ queue

/-- C2 [counterexample]: the claim "rejects iff the reconstructed root is not a
prefix" is false: with `sourcePath = "/x/a/..foo"` and
`intermediateRoot = "/a"`, the reconstructed root is `"/a/.."`, which is *not* a
prefix of the source path (so the claim demands rejection) but *is* a Python
substring of it, so the code accepts the pair and proceeds to dispatch. -/
theorem C2_counterexample :
    src_root "/" "/x/a/..foo" "/a" = "/a/.." ∧
    ("/a/..".data.isPrefixOf "/x/a/..foo".data) = false ∧
    strContains "/x/a/..foo" "/a/.." = true ∧
    radarr_import_mode "/" "/x/a/..foo" "/imp/film/file.mkv" "/a" "/imp" false []
        ⟨["/imp/film/file.mkv"], ["/imp", "/imp/film"]⟩ ≠
      ([Action.logError], ⟨["/imp/film/file.mkv"], ["/imp", "/imp/film"]⟩) := by
  decide

/-- C2 [amended]: each `import_mode` rejects the pair (exactly the trace
`[logError]` with the filesystem unchanged) if and only if the reconstructed
root `absSource` is not a Python *substring* (`in`) of `sourcePath` or the
reconstructed root `absDest` (with backslashes stripped, in the sonarr plugin)
is not a substring of `destPath`.  Substring containment, not prefix matching,
is the implemented test. -/
theorem C2_validation_rejects_iff
    (cwd source_path dest_path intermediate_root import_root : String)
    (sources_removed : Bool) (queue : List QueueRecord) (fs : FS) :
    (sonarr_import_mode cwd source_path dest_path intermediate_root import_root
        sources_removed queue fs = ([Action.logError], fs) ↔
      (strContains source_path (src_root cwd source_path intermediate_root) = false ∨
       strContains dest_path (dest_root_s cwd dest_path import_root) = false)) ∧
    (radarr_import_mode cwd source_path dest_path intermediate_root import_root
        sources_removed queue fs = ([Action.logError], fs) ↔
      (strContains source_path (src_root cwd source_path intermediate_root) = false ∨
       strContains dest_path (dest_root cwd dest_path import_root) = false)) := by
  constructor
  · constructor
    · intro h
      by_cases h1 : strContains source_path (src_root cwd source_path intermediate_root) = true
      · by_cases h2 : strContains dest_path (dest_root_s cwd dest_path import_root) = true
        · exact absurd (congrArg Prod.fst h)
            (sonarr_import_mode_accepts cwd source_path dest_path intermediate_root
              import_root sources_removed queue fs h1 h2)
        · right
          simpa using h2
      · left
        simpa using h1
    · intro h
      rcases h with h | h
      · simp only [sonarr_import_mode]
        rw [if_pos (by simp [h])]
      · by_cases h1 : strContains source_path (src_root cwd source_path intermediate_root) = true
        · simp only [sonarr_import_mode]
          rw [if_neg (not_not_intro h1), if_pos (by simp [h])]
        · simp only [sonarr_import_mode]
          rw [if_pos (by simpa using h1)]
  · constructor
    · intro h
      by_cases h1 : strContains source_path (src_root cwd source_path intermediate_root) = true
      · by_cases h2 : strContains dest_path (dest_root cwd dest_path import_root) = true
        · exact absurd (congrArg Prod.fst h)
            (radarr_import_mode_accepts cwd source_path dest_path intermediate_root
              import_root sources_removed queue fs h1 h2)
        · right
          simpa using h2
      · left
        simpa using h1
    · intro h
      simp only [radarr_import_mode]
      rw [if_pos]
      rcases h with h | h
      · left
        simp [h]
      · right
        simp [h]

/-! ## Claim C8: no removal branch for directory deliveries -/

lemma radarr_find_dir_no_mismatch (db : String) (q : List QueueRecord) :
    ∀ r : QueueRecord, radarr_find true db q ≠ RMatch.extMismatch r := by
  induction q with
  | nil => simp [radarr_find]
  | cons x rest ih =>
    intro r
    simp only [radarr_find]
    by_cases h : x.outputPath = ""
    · simp only [if_pos h]
      exact ih r
    · simp only [if_neg h]
      by_cases hm : recordMatches true db x = true
      · simp [hm]
      · simp only [hm, if_false, Bool.false_eq_true]
        exact ih r

lemma nameError_not_mem_radarr_dispatch_dir (db ad : String) (q : List QueueRecord) :
    Action.nameError "data" ∉ radarr_dispatch true db ad q := by
  rcases hf : radarr_find true db q with _ | r | r
  · simp [radarr_dispatch, hf]
  · by_cases ht : optTruthy r.downloadId = true <;> simp [radarr_dispatch, hf, ht]
  · exact absurd hf (radarr_find_dir_no_mismatch db q r)

/-- C8: for every directory delivery (the reconstructed source root is a
directory), regardless of queue contents, the radarr removal branch is never
executed: a directory match never clears the extension-match flag, so the trace
never contains the removal-branch event. -/
theorem C8_no_removal_for_directories
    (cwd source_path dest_path intermediate_root import_root : String)
    (sources_removed : Bool) (queue : List QueueRecord) (fs : FS)
    (hdir : fs.isdir (src_root cwd source_path intermediate_root) = true) :
    (∀ r : QueueRecord,
      radarr_find true (dest_base cwd dest_path import_root) queue ≠ RMatch.extMismatch r) ∧
    Action.nameError "data" ∉
      (radarr_import_mode cwd source_path dest_path intermediate_root import_root
        sources_removed queue fs).1 := by
  refine ⟨radarr_find_dir_no_mismatch _ _, ?_⟩
  simp only [radarr_import_mode]
  by_cases hv : ¬ strContains source_path (src_root cwd source_path intermediate_root) ∨
      ¬ strContains dest_path (dest_root cwd dest_path import_root)
  · rw [if_pos hv]
    simp
  · rw [if_neg hv]
    by_cases hroot : intermediate_root ≠ import_root
    · rw [if_pos ⟨hdir, hroot⟩]
      cases hp : radarr_delay_pred (nonDotCount fs (src_root cwd source_path intermediate_root))
          (nonDotCount fs (dest_root cwd dest_path import_root)) sources_removed
      · simp only [delay_section_false_eq, if_true]
        rw [hdir]
        simp only [List.append_assoc, List.singleton_append, List.mem_append, List.mem_cons,
          not_or]
        refine ⟨?_, by simp, ?_⟩
        · simp
        · have := nameError_not_mem_radarr_dispatch_dir
            (dest_base cwd dest_path import_root) (dest_root cwd dest_path import_root) queue
          simpa using this
      · simp only [delay_section_true_eq]
        by_cases he : fs.pathExists (dest_path ++ ".tmp") = true
        · simp [he]
        · simp [he]
    · rw [if_neg (fun hc => hroot hc.2)]
      rw [hdir]
      simpa using nameError_not_mem_radarr_dispatch_dir
        (dest_base cwd dest_path import_root) (dest_root cwd dest_path import_root) queue

/-- C8 [witness]: a concrete directory delivery with a matching queue record
whose extensions could never be compared: no removal event in the trace. -/
theorem C8_witness :
    (∀ r : QueueRecord, radarr_find true "Show" [⟨"/dl/Show", some "ID9", some "Show"⟩] ≠
      RMatch.extMismatch r) ∧
    Action.nameError "data" ∉
      (radarr_import_mode "/" "/inter/Show/ep1.mkv" "/imp/Show/ep1.mkv" "/inter" "/imp" false
        [⟨"/dl/Show", some "ID9", some "Show"⟩]
        ⟨["/inter/Show/ep1.mkv", "/imp/Show/ep1.mkv"],
         ["/inter", "/imp", "/inter/Show", "/imp/Show"]⟩).1 :=
  C8_no_removal_for_directories "/" "/inter/Show/ep1.mkv" "/imp/Show/ep1.mkv" "/inter" "/imp"
    false [⟨"/dl/Show", some "ID9", some "Show"⟩]
    ⟨["/inter/Show/ep1.mkv", "/imp/Show/ep1.mkv"],
     ["/inter", "/imp", "/inter/Show", "/imp/Show"]⟩ (by decide)

/-! ## Claim C3: import dispatch -/

/-- Import-scan actions (the `DownloadedEpisodesScan` / `DownloadedMoviesScan`
API calls). -/
def isScan : Action → Bool
  | .scanWithId _ _ => true
  | .scanPath _ => true
  | _ => false

/-- The usable `downloadId` yielded by a sonarr queue-match result: the matched
record's `downloadId` when truthy. -/
def sonarr_usable_id (m : Option QueueRecord) : Option String :=
  match m with
  | some r => if optTruthy r.downloadId then r.downloadId else none
  | none => none

/-- The usable `downloadId` yielded by a radarr queue-match result. -/
def radarr_usable_id : RMatch → Option String
  | .matched r => if optTruthy r.downloadId then r.downloadId else none
  | _ => none

lemma sonarr_dispatch_filter_scan (d : Bool) (db ad : String) (q : List QueueRecord)
    (h : ∃ a ∈ sonarr_dispatch d db ad q, isScan a = true) :
    (sonarr_dispatch d db ad q).filter isScan =
      match sonarr_usable_id (sonarr_find d db q) with
      | some i => [Action.scanWithId ad i]
      | none => [Action.scanPath ad] := by
  rcases hf : sonarr_find d db q with _ | r
  · simp [sonarr_dispatch, hf, sonarr_usable_id, isScan]
  · rcases hdl : r.downloadId with _ | s
    · simp [sonarr_dispatch, hf, hdl, sonarr_usable_id, optTruthy, isScan]
    · by_cases hs : s = ""
      · simp [sonarr_dispatch, hf, hdl, hs, sonarr_usable_id, optTruthy, isScan]
      · cases d with
        | true =>
          exfalso
          rcases h with ⟨a, ha, hscan⟩
          simp only [sonarr_dispatch, hf] at ha
          rw [if_pos ⟨by simp [optTruthy, hdl, hs], trivial⟩] at ha
          simp only [List.mem_cons, List.not_mem_nil, or_false] at ha
          rw [ha] at hscan
          simp [isScan] at hscan
        | false =>
          simp [sonarr_dispatch, hf, hdl, hs, sonarr_usable_id, optTruthy, isScan]

lemma radarr_dispatch_filter_scan (d : Bool) (db ad : String) (q : List QueueRecord)
    (h : ∃ a ∈ radarr_dispatch d db ad q, isScan a = true) :
    (radarr_dispatch d db ad q).filter isScan =
      match radarr_usable_id (radarr_find d db q) with
      | some i => [Action.scanWithId ad i]
      | none => [Action.scanPath ad] := by
  rcases hf : radarr_find d db q with _ | r | r
  · simp [radarr_dispatch, hf, radarr_usable_id, isScan]
  · rcases hdl : r.downloadId with _ | s
    · simp [radarr_dispatch, hf, hdl, radarr_usable_id, optTruthy, isScan]
    · by_cases hs : s = ""
      · simp [radarr_dispatch, hf, hdl, hs, radarr_usable_id, optTruthy, isScan]
      · simp [radarr_dispatch, hf, hdl, hs, radarr_usable_id, optTruthy, isScan]
  · exfalso
    rcases h with ⟨a, ha, hscan⟩
    simp only [radarr_dispatch, hf] at ha
    simp only [List.mem_cons, List.mem_singleton, List.not_mem_nil, or_false] at ha
    rcases ha with ha | ha <;> (rw [ha] at hscan; simp [isScan] at hscan)

/-! ## Branch characterizations of the two `import_mode` functions -/

section Characterizations

variable (cwd source_path dest_path intermediate_root import_root : String)
variable (sources_removed : Bool) (queue : List QueueRecord) (fs : FS)

lemma sonarr_im_delay_noop
    (h1 : strContains source_path (src_root cwd source_path intermediate_root) = true)
    (h2 : strContains dest_path (dest_root_s cwd dest_path import_root) = true)
    (hd : fs.isdir (src_root cwd source_path intermediate_root) = true)
    (hroot : intermediate_root ≠ import_root)
    (hp : sonarr_delay_pred (nonDotCount fs (src_root cwd source_path intermediate_root))
      (nonDotCount fs (dest_root_s cwd dest_path import_root)) sources_removed = true)
    (he : fs.pathExists (dest_path ++ ".tmp") = true) :
    sonarr_import_mode cwd source_path dest_path intermediate_root import_root
      sources_removed queue fs = ([], fs) := by
  simp only [sonarr_import_mode]
  rw [if_neg (not_not_intro h1), if_neg (not_not_intro h2), if_pos ⟨hd, hroot⟩]
  simp only [hp, delay_section_true_eq, he, if_true, Bool.false_eq_true, if_false]

lemma sonarr_im_delay_hide
    (h1 : strContains source_path (src_root cwd source_path intermediate_root) = true)
    (h2 : strContains dest_path (dest_root_s cwd dest_path import_root) = true)
    (hd : fs.isdir (src_root cwd source_path intermediate_root) = true)
    (hroot : intermediate_root ≠ import_root)
    (hp : sonarr_delay_pred (nonDotCount fs (src_root cwd source_path intermediate_root))
      (nonDotCount fs (dest_root_s cwd dest_path import_root)) sources_removed = true)
    (he : fs.pathExists (dest_path ++ ".tmp") = false) :
    sonarr_import_mode cwd source_path dest_path intermediate_root import_root
      sources_removed queue fs =
      ([Action.rename dest_path (dest_path ++ ".tmp")],
        fs.rename dest_path (dest_path ++ ".tmp")) := by
  simp only [sonarr_import_mode]
  rw [if_neg (not_not_intro h1), if_neg (not_not_intro h2), if_pos ⟨hd, hroot⟩]
  simp only [hp, delay_section_true_eq, he, if_false, Bool.false_eq_true]

lemma sonarr_im_unhide
    (h1 : strContains source_path (src_root cwd source_path intermediate_root) = true)
    (h2 : strContains dest_path (dest_root_s cwd dest_path import_root) = true)
    (hd : fs.isdir (src_root cwd source_path intermediate_root) = true)
    (hroot : intermediate_root ≠ import_root)
    (hp : sonarr_delay_pred (nonDotCount fs (src_root cwd source_path intermediate_root))
      (nonDotCount fs (dest_root_s cwd dest_path import_root)) sources_removed = false) :
    sonarr_import_mode cwd source_path dest_path intermediate_root import_root
      sources_removed queue fs =
      ((rglobList fs (dest_root_s cwd dest_path import_root) tmpMatch).map
          (fun p => Action.rename p (splitextFst p)) ++
        Action.chmod (dest_root_s cwd dest_path import_root) ::
          sonarr_dispatch (fs.isdir (src_root cwd source_path intermediate_root))
            (dest_base cwd dest_path import_root)
            (dest_root_s cwd dest_path import_root) queue,
       (rglobList fs (dest_root_s cwd dest_path import_root) tmpMatch).foldl
         (fun st p => st.rename p (splitextFst p)) fs) := by
  simp only [sonarr_import_mode]
  rw [if_neg (not_not_intro h1), if_neg (not_not_intro h2), if_pos ⟨hd, hroot⟩]
  simp only [hp, delay_section_false_eq, if_true]
  rw [List.append_assoc, List.singleton_append]

lemma sonarr_im_direct
    (h1 : strContains source_path (src_root cwd source_path intermediate_root) = true)
    (h2 : strContains dest_path (dest_root_s cwd dest_path import_root) = true)
    (hnd : ¬ (fs.isdir (src_root cwd source_path intermediate_root) = true ∧
      intermediate_root ≠ import_root)) :
    sonarr_import_mode cwd source_path dest_path intermediate_root import_root
      sources_removed queue fs =
      (sonarr_dispatch (fs.isdir (src_root cwd source_path intermediate_root))
        (dest_base cwd dest_path import_root)
        (dest_root_s cwd dest_path import_root) queue, fs) := by
  simp only [sonarr_import_mode]
  rw [if_neg (not_not_intro h1), if_neg (not_not_intro h2), if_neg hnd]

lemma radarr_im_delay_noop
    (hv : ¬ (¬ strContains source_path (src_root cwd source_path intermediate_root) ∨
      ¬ strContains dest_path (dest_root cwd dest_path import_root)))
    (hd : fs.isdir (src_root cwd source_path intermediate_root) = true)
    (hroot : intermediate_root ≠ import_root)
    (hp : radarr_delay_pred (nonDotCount fs (src_root cwd source_path intermediate_root))
      (nonDotCount fs (dest_root cwd dest_path import_root)) sources_removed = true)
    (he : fs.pathExists (dest_path ++ ".tmp") = true) :
    radarr_import_mode cwd source_path dest_path intermediate_root import_root
      sources_removed queue fs = ([], fs) := by
  simp only [radarr_import_mode]
  rw [if_neg hv, if_pos ⟨hd, hroot⟩]
  simp only [hp, delay_section_true_eq, he, if_true, Bool.false_eq_true, if_false]

lemma radarr_im_delay_hide
    (hv : ¬ (¬ strContains source_path (src_root cwd source_path intermediate_root) ∨
      ¬ strContains dest_path (dest_root cwd dest_path import_root)))
    (hd : fs.isdir (src_root cwd source_path intermediate_root) = true)
    (hroot : intermediate_root ≠ import_root)
    (hp : radarr_delay_pred (nonDotCount fs (src_root cwd source_path intermediate_root))
      (nonDotCount fs (dest_root cwd dest_path import_root)) sources_removed = true)
    (he : fs.pathExists (dest_path ++ ".tmp") = false) :
    radarr_import_mode cwd source_path dest_path intermediate_root import_root
      sources_removed queue fs =
      ([Action.rename dest_path (dest_path ++ ".tmp")],
        fs.rename dest_path (dest_path ++ ".tmp")) := by
  simp only [radarr_import_mode]
  rw [if_neg hv, if_pos ⟨hd, hroot⟩]
  simp only [hp, delay_section_true_eq, he, if_false, Bool.false_eq_true]

lemma radarr_im_unhide
    (hv : ¬ (¬ strContains source_path (src_root cwd source_path intermediate_root) ∨
      ¬ strContains dest_path (dest_root cwd dest_path import_root)))
    (hd : fs.isdir (src_root cwd source_path intermediate_root) = true)
    (hroot : intermediate_root ≠ import_root)
    (hp : radarr_delay_pred (nonDotCount fs (src_root cwd source_path intermediate_root))
      (nonDotCount fs (dest_root cwd dest_path import_root)) sources_removed = false) :
    radarr_import_mode cwd source_path dest_path intermediate_root import_root
      sources_removed queue fs =
      ((rglobList fs (dest_root cwd dest_path import_root) tmpMatch).map
          (fun p => Action.rename p (splitextFst p)) ++
        Action.chmod (dest_root cwd dest_path import_root) ::
          radarr_dispatch (fs.isdir (src_root cwd source_path intermediate_root))
            (dest_base cwd dest_path import_root)
            (dest_root cwd dest_path import_root) queue,
       (rglobList fs (dest_root cwd dest_path import_root) tmpMatch).foldl
         (fun st p => st.rename p (splitextFst p)) fs) := by
  simp only [radarr_import_mode]
  rw [if_neg hv, if_pos ⟨hd, hroot⟩]
  simp only [hp, delay_section_false_eq, if_true]
  rw [List.append_assoc, List.singleton_append]

lemma radarr_im_direct
    (hv : ¬ (¬ strContains source_path (src_root cwd source_path intermediate_root) ∨
      ¬ strContains dest_path (dest_root cwd dest_path import_root)))
    (hnd : ¬ (fs.isdir (src_root cwd source_path intermediate_root) = true ∧
      intermediate_root ≠ import_root)) :
    radarr_import_mode cwd source_path dest_path intermediate_root import_root
      sources_removed queue fs =
      (radarr_dispatch (fs.isdir (src_root cwd source_path intermediate_root))
        (dest_base cwd dest_path import_root)
        (dest_root cwd dest_path import_root) queue, fs) := by
  simp only [radarr_import_mode]
  rw [if_neg hv, if_neg hnd]

lemma sonarr_im_reject₁
    (h1 : strContains source_path (src_root cwd source_path intermediate_root) = false) :
    sonarr_import_mode cwd source_path dest_path intermediate_root import_root
      sources_removed queue fs = ([Action.logError], fs) := by
  simp only [sonarr_import_mode]
  rw [if_pos (by simp [h1])]

lemma sonarr_im_reject₂
    (h1 : strContains source_path (src_root cwd source_path intermediate_root) = true)
    (h2 : strContains dest_path (dest_root_s cwd dest_path import_root) = false) :
    sonarr_import_mode cwd source_path dest_path intermediate_root import_root
      sources_removed queue fs = ([Action.logError], fs) := by
  simp only [sonarr_import_mode]
  rw [if_neg (not_not_intro h1), if_pos (by simp [h2])]

lemma radarr_im_reject
    (hv : ¬ strContains source_path (src_root cwd source_path intermediate_root) ∨
      ¬ strContains dest_path (dest_root cwd dest_path import_root)) :
    radarr_import_mode cwd source_path dest_path intermediate_root import_root
      sources_removed queue fs = ([Action.logError], fs) := by
  simp only [radarr_import_mode]
  rw [if_pos hv]

end Characterizations

lemma filter_scan_unhide (l : List String) (ad : String) (rest : List Action) :
    (l.map (fun p => Action.rename p (splitextFst p)) ++ Action.chmod ad :: rest).filter isScan
      = rest.filter isScan := by
  rw [List.filter_append]
  have hm : (l.map (fun p => Action.rename p (splitextFst p))).filter isScan = [] := by
    rw [List.filter_eq_nil_iff]
    intro a ha
    rcases List.mem_map.mp ha with ⟨p, _, rfl⟩
    simp [isScan]
  rw [hm, List.nil_append, List.filter_cons_of_neg (by simp [isScan])]

lemma exists_scan_unhide (l : List String) (ad : String) (rest : List Action)
    (h : ∃ a ∈ l.map (fun p => Action.rename p (splitextFst p)) ++ Action.chmod ad :: rest,
      isScan a = true) :
    ∃ a ∈ rest, isScan a = true := by
  rcases h with ⟨a, ha, hs⟩
  rcases List.mem_append.mp ha with ha | ha
  · rcases List.mem_map.mp ha with ⟨p, _, rfl⟩
    simp [isScan] at hs
  · rcases List.mem_cons.mp ha with rfl | ha
    · simp [isScan] at hs
    · exact ⟨a, ha, hs⟩

/-- C3: for every delivery on which an import-scan request is issued at all
(i.e. the run reaches the import-dispatch step), the issued scans are exactly:
one scan bound to the usable `downloadId` and the reconstructed destination root
when the queue match yielded one, and one scan by destination root alone
otherwise — in both notifier plugins. -/
theorem C3_import_dispatch
    (cwd source_path dest_path intermediate_root import_root : String)
    (sources_removed : Bool) (queue : List QueueRecord) (fs : FS) :
    ((∃ a ∈ (sonarr_import_mode cwd source_path dest_path intermediate_root import_root
        sources_removed queue fs).1, isScan a = true) →
      (sonarr_import_mode cwd source_path dest_path intermediate_root import_root
          sources_removed queue fs).1.filter isScan =
        (match sonarr_usable_id (sonarr_find
            (fs.isdir (src_root cwd source_path intermediate_root))
            (dest_base cwd dest_path import_root) queue) with
         | some i => [Action.scanWithId (dest_root_s cwd dest_path import_root) i]
         | none => [Action.scanPath (dest_root_s cwd dest_path import_root)])) ∧
    ((∃ a ∈ (radarr_import_mode cwd source_path dest_path intermediate_root import_root
        sources_removed queue fs).1, isScan a = true) →
      (radarr_import_mode cwd source_path dest_path intermediate_root import_root
          sources_removed queue fs).1.filter isScan =
        (match radarr_usable_id (radarr_find
            (fs.isdir (src_root cwd source_path intermediate_root))
            (dest_base cwd dest_path import_root) queue) with
         | some i => [Action.scanWithId (dest_root cwd dest_path import_root) i]
         | none => [Action.scanPath (dest_root cwd dest_path import_root)])) := by
  constructor
  · intro h
    by_cases h1 : strContains source_path (src_root cwd source_path intermediate_root) = true
    · by_cases h2 : strContains dest_path (dest_root_s cwd dest_path import_root) = true
      · by_cases hnd : fs.isdir (src_root cwd source_path intermediate_root) = true ∧
            intermediate_root ≠ import_root
        · cases hp : sonarr_delay_pred
              (nonDotCount fs (src_root cwd source_path intermediate_root))
              (nonDotCount fs (dest_root_s cwd dest_path import_root)) sources_removed
          · have htr : (sonarr_import_mode cwd source_path dest_path intermediate_root
                import_root sources_removed queue fs).1 =
                (rglobList fs (dest_root_s cwd dest_path import_root) tmpMatch).map
                    (fun p => Action.rename p (splitextFst p)) ++
                  Action.chmod (dest_root_s cwd dest_path import_root) ::
                    sonarr_dispatch (fs.isdir (src_root cwd source_path intermediate_root))
                      (dest_base cwd dest_path import_root)
                      (dest_root_s cwd dest_path import_root) queue := by
              rw [sonarr_im_unhide _ _ _ _ _ _ _ _ h1 h2 hnd.1 hnd.2 hp]
            rw [htr] at h ⊢
            rw [filter_scan_unhide]
            exact sonarr_dispatch_filter_scan _ _ _ _ (exists_scan_unhide _ _ _ h)
          · cases he : fs.pathExists (dest_path ++ ".tmp")
            · have htr : (sonarr_import_mode cwd source_path dest_path intermediate_root
                  import_root sources_removed queue fs).1 =
                  [Action.rename dest_path (dest_path ++ ".tmp")] := by
                rw [sonarr_im_delay_hide _ _ _ _ _ _ _ _ h1 h2 hnd.1 hnd.2 hp he]
              rw [htr] at h
              simp [isScan] at h
            · have htr : (sonarr_import_mode cwd source_path dest_path intermediate_root
                  import_root sources_removed queue fs).1 = [] := by
                rw [sonarr_im_delay_noop _ _ _ _ _ _ _ _ h1 h2 hnd.1 hnd.2 hp he]
              rw [htr] at h
              simp at h
        · have htr : (sonarr_import_mode cwd source_path dest_path intermediate_root
              import_root sources_removed queue fs).1 =
              sonarr_dispatch (fs.isdir (src_root cwd source_path intermediate_root))
                (dest_base cwd dest_path import_root)
                (dest_root_s cwd dest_path import_root) queue := by
            rw [sonarr_im_direct _ _ _ _ _ _ _ _ h1 h2 hnd]
          rw [htr] at h ⊢
          exact sonarr_dispatch_filter_scan _ _ _ _ h
      · have htr : (sonarr_import_mode cwd source_path dest_path intermediate_root
            import_root sources_removed queue fs).1 = [Action.logError] := by
          rw [sonarr_im_reject₂ _ _ _ _ _ _ _ _ h1 (by simpa using h2)]
        rw [htr] at h
        simp [isScan] at h
    · have htr : (sonarr_import_mode cwd source_path dest_path intermediate_root
          import_root sources_removed queue fs).1 = [Action.logError] := by
        rw [sonarr_im_reject₁ _ _ _ _ _ _ _ _ (by simpa using h1)]
      rw [htr] at h
      simp [isScan] at h
  · intro h
    by_cases hv : ¬ strContains source_path (src_root cwd source_path intermediate_root) ∨
        ¬ strContains dest_path (dest_root cwd dest_path import_root)
    · have htr : (radarr_import_mode cwd source_path dest_path intermediate_root
          import_root sources_removed queue fs).1 = [Action.logError] := by
        rw [radarr_im_reject _ _ _ _ _ _ _ _ hv]
      rw [htr] at h
      simp [isScan] at h
    · by_cases hnd : fs.isdir (src_root cwd source_path intermediate_root) = true ∧
          intermediate_root ≠ import_root
      · cases hp : radarr_delay_pred
            (nonDotCount fs (src_root cwd source_path intermediate_root))
            (nonDotCount fs (dest_root cwd dest_path import_root)) sources_removed
        · have htr : (radarr_import_mode cwd source_path dest_path intermediate_root
              import_root sources_removed queue fs).1 =
              (rglobList fs (dest_root cwd dest_path import_root) tmpMatch).map
                  (fun p => Action.rename p (splitextFst p)) ++
                Action.chmod (dest_root cwd dest_path import_root) ::
                  radarr_dispatch (fs.isdir (src_root cwd source_path intermediate_root))
                    (dest_base cwd dest_path import_root)
                    (dest_root cwd dest_path import_root) queue := by
            rw [radarr_im_unhide _ _ _ _ _ _ _ _ hv hnd.1 hnd.2 hp]
          rw [htr] at h ⊢
          rw [filter_scan_unhide]
          exact radarr_dispatch_filter_scan _ _ _ _ (exists_scan_unhide _ _ _ h)
        · cases he : fs.pathExists (dest_path ++ ".tmp")
          · have htr : (radarr_import_mode cwd source_path dest_path intermediate_root
                import_root sources_removed queue fs).1 =
                [Action.rename dest_path (dest_path ++ ".tmp")] := by
              rw [radarr_im_delay_hide _ _ _ _ _ _ _ _ hv hnd.1 hnd.2 hp he]
            rw [htr] at h
            simp [isScan] at h
          · have htr : (radarr_import_mode cwd source_path dest_path intermediate_root
                import_root sources_removed queue fs).1 = [] := by
              rw [radarr_im_delay_noop _ _ _ _ _ _ _ _ hv hnd.1 hnd.2 hp he]
            rw [htr] at h
            simp at h
      · have htr : (radarr_import_mode cwd source_path dest_path intermediate_root
            import_root sources_removed queue fs).1 =
            radarr_dispatch (fs.isdir (src_root cwd source_path intermediate_root))
              (dest_base cwd dest_path import_root)
              (dest_root cwd dest_path import_root) queue := by
          rw [radarr_im_direct _ _ _ _ _ _ _ _ hv hnd]
        rw [htr] at h ⊢
        exact radarr_dispatch_filter_scan _ _ _ _ h

/-- C3 [witness]: a file delivery with a usable queue match: exactly one
ID-bound scan is issued by each plugin. -/
theorem C3_witness :
    (∃ a ∈ (sonarr_import_mode "/" "/inter/Movie.mkv" "/imp/Movie.mkv" "/inter" "/imp" false
        [⟨"/dl/Movie.mkv", some "ID1", some "Movie"⟩]
        ⟨["/inter/Movie.mkv", "/imp/Movie.mkv"], ["/inter", "/imp"]⟩).1, isScan a = true) ∧
    (sonarr_import_mode "/" "/inter/Movie.mkv" "/imp/Movie.mkv" "/inter" "/imp" false
        [⟨"/dl/Movie.mkv", some "ID1", some "Movie"⟩]
        ⟨["/inter/Movie.mkv", "/imp/Movie.mkv"], ["/inter", "/imp"]⟩).1.filter isScan =
      [Action.scanWithId "/imp/Movie.mkv" "ID1"] :=
  ⟨⟨Action.scanWithId "/imp/Movie.mkv" "ID1", by decide, by decide⟩, by
    have := (C3_import_dispatch "/" "/inter/Movie.mkv" "/imp/Movie.mkv" "/inter" "/imp" false
      [⟨"/dl/Movie.mkv", some "ID1", some "Movie"⟩]
      ⟨["/inter/Movie.mkv", "/imp/Movie.mkv"], ["/inter", "/imp"]⟩).1
      ⟨Action.scanWithId "/imp/Movie.mkv" "ID1", by decide, by decide⟩
    simpa using this⟩

/-! ## Claim C5: delayed deliveries — no API call, idempotent hide -/

lemma isPrefixOf_snoc_append (rd a t : List Char) (ht : '/' ∉ t) :
    (rd ++ ['/']).isPrefixOf (a ++ t) = (rd ++ ['/']).isPrefixOf a := by
  rw [Bool.eq_iff_iff, List.isPrefixOf_iff_prefix, List.isPrefixOf_iff_prefix]
  constructor
  · intro h
    by_cases hlen : (rd ++ ['/']).length ≤ a.length
    · exact List.prefix_of_prefix_length_le h (List.prefix_append a t) hlen
    · exfalso
      obtain ⟨s, hs⟩ := h
      rw [List.append_assoc, List.singleton_append] at hs
      have hlen' : a.length ≤ rd.length := by
        simp only [List.length_append, List.length_singleton] at hlen
        omega
      have hteq : t = rd.drop a.length ++ '/' :: s := by
        have hdrop := congrArg (List.drop a.length) hs
        rw [List.drop_append_of_le_length hlen'] at hdrop
        rw [hdrop, List.drop_left]
      apply ht
      rw [hteq]
      exact List.mem_append_right _ (List.mem_cons_self _ _)
  · intro h
    exact h.trans (List.prefix_append a t)

lemma posix_basename_append_tmp (p : String) :
    posix_basename (p ++ ".tmp") = posix_basename p ++ ".tmp" := by
  have hdata : (p ++ ".tmp").data = p.data ++ ".tmp".data := String.data_append p ".tmp"
  have hslash : lastIdxOf '/' (p.data ++ ".tmp".data) = lastIdxOf '/' p.data :=
    lastIdxOf_append_of_not_mem p.data (by decide)
  unfold posix_basename
  rcases hs : lastIdxOf '/' p.data with _ | i
  · rw [hdata, hslash, hs]
  · rw [hdata, hslash, hs]
    have hle : i + 1 ≤ p.data.length := lastIdxOf_lt_length hs
    show (⟨List.drop (i + 1) (p.data ++ ".tmp".data)⟩ : String)
      = (⟨List.drop (i + 1) p.data⟩ : String) ++ ".tmp"
    rw [List.drop_append_of_le_length hle]
    rfl

lemma nonDotMatch_append_tmp {b : String} (h : nonDotMatch b = true) :
    nonDotMatch (b ++ ".tmp") = true := by
  unfold nonDotMatch at h ⊢
  rcases hb : b.data with _ | ⟨c, rest⟩
  · rw [hb] at h
    simp at h
  · rw [hb] at h
    have hdata : (b ++ ".tmp").data = c :: (rest ++ ".tmp".data) := by
      rw [String.data_append, hb]
      rfl
    rw [hdata]
    simp only [Bool.and_eq_true] at h ⊢
    refine ⟨h.1, ?_⟩
    exact List.elem_iff.mpr (List.mem_append_left _ (List.elem_iff.mp h.2))

lemma rglobMatches_nonDot_rename (root dest : String)
    (hseg : nonDotMatch (posix_basename dest) = true) :
    rglobMatches root nonDotMatch (dest ++ ".tmp") = rglobMatches root nonDotMatch dest := by
  unfold rglobMatches
  have h1 : (root ++ "/").data = root.data ++ ['/'] := by
    rw [String.data_append]
  have h2 : (dest ++ ".tmp").data = dest.data ++ ".tmp".data := String.data_append _ _
  rw [h1, h2, isPrefixOf_snoc_append root.data dest.data ".tmp".data (by decide),
    posix_basename_append_tmp, nonDotMatch_append_tmp hseg, hseg]

lemma length_filter_map_replace (l : List String) (src dst : String) (m : String → Bool)
    (h : m src = m dst) :
    ((l.map (fun p => if p = src then dst else p)).filter m).length
      = (l.filter m).length := by
  induction l with
  | nil => rfl
  | cons p t ih =>
    simp only [List.map_cons, List.filter_cons]
    by_cases hp : p = src
    · rw [if_pos hp, hp, h]
      cases hm : m dst <;> simp [hm, ih]
    · rw [if_neg hp]
      cases hm : m p <;> simp [hm, ih]

lemma nonDotCount_rename_tmp (fs : FS) (dest root : String)
    (hseg : nonDotMatch (posix_basename dest) = true) :
    nonDotCount (fs.rename dest (dest ++ ".tmp")) root = nonDotCount fs root := by
  unfold nonDotCount rglobList FS.rename
  exact length_filter_map_replace fs.files dest (dest ++ ".tmp") _
    (rglobMatches_nonDot_rename root dest hseg).symm

lemma pathExists_rename_self (fs : FS) (src dst : String) (h : src ∈ fs.files) :
    (fs.rename src dst).pathExists dst = true := by
  have hmem : dst ∈ (fs.rename src dst).files :=
    List.mem_map.mpr ⟨src, h, by simp⟩
  simp only [FS.pathExists, Bool.or_eq_true]
  exact Or.inl (List.elem_iff.mpr hmem)

/-- C5: for a directory delivery with distinct roots and `remaining > 0` (both
plugins' delay predicates), the run performs no queue fetch and no import-scan
(its trace holds at most the single hide rename), the `.tmp` sentinel exists
afterwards, and a second invocation in the resulting state is a complete no-op
(empty trace, unchanged filesystem): the rename is produced exactly once.
Hypotheses: the delivered `dest_path` is an existing file whose basename matches
the count pattern `[!.]*.*` (a normal media file name). -/
theorem C5_delay_no_api_idempotent
    (cwd source_path dest_path intermediate_root import_root : String)
    (sources_removed : Bool) (queue : List QueueRecord) (fs : FS)
    (h1 : strContains source_path (src_root cwd source_path intermediate_root) = true)
    (h2s : strContains dest_path (dest_root_s cwd dest_path import_root) = true)
    (h2r : strContains dest_path (dest_root cwd dest_path import_root) = true)
    (hd : fs.isdir (src_root cwd source_path intermediate_root) = true)
    (hroot : intermediate_root ≠ import_root)
    (hps : sonarr_delay_pred (nonDotCount fs (src_root cwd source_path intermediate_root))
      (nonDotCount fs (dest_root_s cwd dest_path import_root)) sources_removed = true)
    (hpr : radarr_delay_pred (nonDotCount fs (src_root cwd source_path intermediate_root))
      (nonDotCount fs (dest_root cwd dest_path import_root)) sources_removed = true)
    (hmem : dest_path ∈ fs.files)
    (hseg : nonDotMatch (posix_basename dest_path) = true) :
    ((∀ a ∈ (sonarr_import_mode cwd source_path dest_path intermediate_root import_root
        sources_removed queue fs).1,
      a = Action.rename dest_path (dest_path ++ ".tmp")) ∧
    ((sonarr_import_mode cwd source_path dest_path intermediate_root import_root
        sources_removed queue fs).2.pathExists (dest_path ++ ".tmp") = true) ∧
    (sonarr_import_mode cwd source_path dest_path intermediate_root import_root
        sources_removed queue
        ((sonarr_import_mode cwd source_path dest_path intermediate_root import_root
          sources_removed queue fs).2) =
      ([], (sonarr_import_mode cwd source_path dest_path intermediate_root import_root
          sources_removed queue fs).2))) ∧
    ((∀ a ∈ (radarr_import_mode cwd source_path dest_path intermediate_root import_root
        sources_removed queue fs).1,
      a = Action.rename dest_path (dest_path ++ ".tmp")) ∧
    ((radarr_import_mode cwd source_path dest_path intermediate_root import_root
        sources_removed queue fs).2.pathExists (dest_path ++ ".tmp") = true) ∧
    (radarr_import_mode cwd source_path dest_path intermediate_root import_root
        sources_removed queue
        ((radarr_import_mode cwd source_path dest_path intermediate_root import_root
          sources_removed queue fs).2) =
      ([], (radarr_import_mode cwd source_path dest_path intermediate_root import_root
          sources_removed queue fs).2))) := by
  have hv : ¬ (¬ strContains source_path (src_root cwd source_path intermediate_root) ∨
      ¬ strContains dest_path (dest_root cwd dest_path import_root)) := by
    simp [h1, h2r]
  constructor
  · cases he : fs.pathExists (dest_path ++ ".tmp")
    · have hrun := sonarr_im_delay_hide cwd source_path dest_path intermediate_root
        import_root sources_removed queue fs h1 h2s hd hroot hps he
      have hp2 : sonarr_delay_pred
          (nonDotCount (fs.rename dest_path (dest_path ++ ".tmp"))
            (src_root cwd source_path intermediate_root))
          (nonDotCount (fs.rename dest_path (dest_path ++ ".tmp"))
            (dest_root_s cwd dest_path import_root)) sources_removed = true := by
        rw [nonDotCount_rename_tmp fs dest_path _ hseg, nonDotCount_rename_tmp fs dest_path _ hseg]
        exact hps
      have he2 : (fs.rename dest_path (dest_path ++ ".tmp")).pathExists
          (dest_path ++ ".tmp") = true :=
        pathExists_rename_self fs _ _ hmem
      refine ⟨?_, ?_, ?_⟩
      · rw [hrun]
        intro a ha
        simpa using ha
      · rw [hrun]
        exact he2
      · rw [hrun]
        exact sonarr_im_delay_noop cwd source_path dest_path intermediate_root import_root
          sources_removed queue (fs.rename dest_path (dest_path ++ ".tmp"))
          h1 h2s hd hroot hp2 he2
    · have hrun := sonarr_im_delay_noop cwd source_path dest_path intermediate_root
        import_root sources_removed queue fs h1 h2s hd hroot hps he
      refine ⟨?_, ?_, ?_⟩
      · rw [hrun]
        intro a ha
        simp at ha
      · rw [hrun]
        exact he
      · rw [hrun]
        exact sonarr_im_delay_noop cwd source_path dest_path intermediate_root import_root
          sources_removed queue fs h1 h2s hd hroot hps he
  · cases he : fs.pathExists (dest_path ++ ".tmp")
    · have hrun := radarr_im_delay_hide cwd source_path dest_path intermediate_root
        import_root sources_removed queue fs hv hd hroot hpr he
      have hp2 : radarr_delay_pred
          (nonDotCount (fs.rename dest_path (dest_path ++ ".tmp"))
            (src_root cwd source_path intermediate_root))
          (nonDotCount (fs.rename dest_path (dest_path ++ ".tmp"))
            (dest_root cwd dest_path import_root)) sources_removed = true := by
        rw [nonDotCount_rename_tmp fs dest_path _ hseg, nonDotCount_rename_tmp fs dest_path _ hseg]
        exact hpr
      have he2 : (fs.rename dest_path (dest_path ++ ".tmp")).pathExists
          (dest_path ++ ".tmp") = true :=
        pathExists_rename_self fs _ _ hmem
      refine ⟨?_, ?_, ?_⟩
      · rw [hrun]
        intro a ha
        simpa using ha
      · rw [hrun]
        exact he2
      · rw [hrun]
        exact radarr_im_delay_noop cwd source_path dest_path intermediate_root import_root
          sources_removed queue (fs.rename dest_path (dest_path ++ ".tmp"))
          hv hd hroot hp2 he2
    · have hrun := radarr_im_delay_noop cwd source_path dest_path intermediate_root
        import_root sources_removed queue fs hv hd hroot hpr he
      refine ⟨?_, ?_, ?_⟩
      · rw [hrun]
        intro a ha
        simp at ha
      · rw [hrun]
        exact he
      · rw [hrun]
        exact radarr_im_delay_noop cwd source_path dest_path intermediate_root import_root
          sources_removed queue fs hv hd hroot hpr he

/-- C5 [witness]: a delayed two-file directory delivery: after the first run the
sentinel exists, and the second sonarr run is a no-op. -/
theorem C5_witness :
    (sonarr_import_mode "/" "/inter/Show/ep1.mkv" "/imp/Show/ep1.mkv" "/inter" "/imp" false []
        ⟨["/inter/Show/ep1.mkv", "/inter/Show/ep2.mkv", "/imp/Show/ep1.mkv"],
         ["/inter", "/imp", "/inter/Show", "/imp/Show"]⟩).2.pathExists
      ("/imp/Show/ep1.mkv" ++ ".tmp") = true :=
  ((C5_delay_no_api_idempotent "/" "/inter/Show/ep1.mkv" "/imp/Show/ep1.mkv" "/inter" "/imp"
    false []
    ⟨["/inter/Show/ep1.mkv", "/inter/Show/ep2.mkv", "/imp/Show/ep1.mkv"],
     ["/inter", "/imp", "/inter/Show", "/imp/Show"]⟩
    (by decide) (by decide) (by decide) (by decide) (by decide) (by decide) (by decide)
    (by decide) (by decide)).1).2.1

/-! ## Claim C6: un-hide before queue matching -/

/-- C6 [counterexample]: a hidden file named exactly `.tmp` under the
destination tree matches the `rglob('*.tmp')` scan (pathlib's glob does not
exclude hidden names), but `splitext` strips nothing from an all-leading-dots
basename, so the file is renamed to itself and is *not* restored to an
un-suffixed name: after the run the `.tmp`-suffixed path is still present. -/
theorem C6_counterexample :
    rglobMatches "/imp/Show" tmpMatch "/imp/Show/.tmp" = true ∧
    splitextFst "/imp/Show/.tmp" = "/imp/Show/.tmp" ∧
    sonarr_import_mode "/" "/inter/Show/ep1.mkv" "/imp/Show/ep1.mkv" "/inter" "/imp" false []
        ⟨["/inter/Show/ep1.mkv", "/imp/Show/ep1.mkv", "/imp/Show/.tmp"],
         ["/inter", "/imp", "/inter/Show", "/imp/Show"]⟩ =
      ([Action.rename "/imp/Show/.tmp" "/imp/Show/.tmp", Action.chmod "/imp/Show",
        Action.getQueue, Action.scanPath "/imp/Show"],
       ⟨["/inter/Show/ep1.mkv", "/imp/Show/ep1.mkv", "/imp/Show/.tmp"],
        ["/inter", "/imp", "/inter/Show", "/imp/Show"]⟩) := by
  decide

/-- C6 [amended]: for every directory delivery with `remaining ≤ 0`, every file
matching the `rglob('*.tmp')` scan under the destination root is renamed to its
`splitext`-stripped name — which strips the `.tmp` suffix exactly when the
file's basename has a non-dot character before the suffix (a file whose basename
is a bare dot-run plus `.tmp`, such as `.tmp` itself, is renamed to itself) —
and the destination root's permissions are normalized, all before the queue
fetch and matching; in both notifier plugins. -/
theorem C6_unhide_before_queue
    (cwd source_path dest_path intermediate_root import_root : String)
    (sources_removed : Bool) (queue : List QueueRecord) (fs : FS)
    (h1 : strContains source_path (src_root cwd source_path intermediate_root) = true)
    (h2s : strContains dest_path (dest_root_s cwd dest_path import_root) = true)
    (h2r : strContains dest_path (dest_root cwd dest_path import_root) = true)
    (hd : fs.isdir (src_root cwd source_path intermediate_root) = true)
    (hroot : intermediate_root ≠ import_root)
    (hps : sonarr_delay_pred (nonDotCount fs (src_root cwd source_path intermediate_root))
      (nonDotCount fs (dest_root_s cwd dest_path import_root)) sources_removed = false)
    (hpr : radarr_delay_pred (nonDotCount fs (src_root cwd source_path intermediate_root))
      (nonDotCount fs (dest_root cwd dest_path import_root)) sources_removed = false) :
    ((∃ rest, (sonarr_import_mode cwd source_path dest_path intermediate_root import_root
        sources_removed queue fs).1 =
      (rglobList fs (dest_root_s cwd dest_path import_root) tmpMatch).map
          (fun p => Action.rename p (splitextFst p)) ++
        Action.chmod (dest_root_s cwd dest_path import_root) :: Action.getQueue :: rest) ∧
    (∀ p ∈ fs.files, rglobMatches (dest_root_s cwd dest_path import_root) tmpMatch p = true →
      Action.rename p (splitextFst p) ∈
        (sonarr_import_mode cwd source_path dest_path intermediate_root import_root
          sources_removed queue fs).1)) ∧
    ((∃ rest, (radarr_import_mode cwd source_path dest_path intermediate_root import_root
        sources_removed queue fs).1 =
      (rglobList fs (dest_root cwd dest_path import_root) tmpMatch).map
          (fun p => Action.rename p (splitextFst p)) ++
        Action.chmod (dest_root cwd dest_path import_root) :: Action.getQueue :: rest) ∧
    (∀ p ∈ fs.files, rglobMatches (dest_root cwd dest_path import_root) tmpMatch p = true →
      Action.rename p (splitextFst p) ∈
        (radarr_import_mode cwd source_path dest_path intermediate_root import_root
          sources_removed queue fs).1)) := by
  have hv : ¬ (¬ strContains source_path (src_root cwd source_path intermediate_root) ∨
      ¬ strContains dest_path (dest_root cwd dest_path import_root)) := by
    simp [h1, h2r]
  have htrS : (sonarr_import_mode cwd source_path dest_path intermediate_root import_root
      sources_removed queue fs).1 =
      (rglobList fs (dest_root_s cwd dest_path import_root) tmpMatch).map
          (fun p => Action.rename p (splitextFst p)) ++
        Action.chmod (dest_root_s cwd dest_path import_root) ::
          sonarr_dispatch (fs.isdir (src_root cwd source_path intermediate_root))
            (dest_base cwd dest_path import_root)
            (dest_root_s cwd dest_path import_root) queue := by
    rw [sonarr_im_unhide cwd source_path dest_path intermediate_root import_root
      sources_removed queue fs h1 h2s hd hroot hps]
  have htrR : (radarr_import_mode cwd source_path dest_path intermediate_root import_root
      sources_removed queue fs).1 =
      (rglobList fs (dest_root cwd dest_path import_root) tmpMatch).map
          (fun p => Action.rename p (splitextFst p)) ++
        Action.chmod (dest_root cwd dest_path import_root) ::
          radarr_dispatch (fs.isdir (src_root cwd source_path intermediate_root))
            (dest_base cwd dest_path import_root)
            (dest_root cwd dest_path import_root) queue := by
    rw [radarr_im_unhide cwd source_path dest_path intermediate_root import_root
      sources_removed queue fs hv hd hroot hpr]
  refine ⟨⟨⟨(sonarr_dispatch (fs.isdir (src_root cwd source_path intermediate_root))
      (dest_base cwd dest_path import_root) (dest_root_s cwd dest_path import_root)
      queue).tail, ?_⟩, ?_⟩,
    ⟨(radarr_dispatch (fs.isdir (src_root cwd source_path intermediate_root))
      (dest_base cwd dest_path import_root) (dest_root cwd dest_path import_root)
      queue).tail, ?_⟩, ?_⟩
  · rw [htrS]
    simp only [sonarr_dispatch, List.tail_cons]
  · intro p hp hm
    rw [htrS]
    exact List.mem_append_left _
      (List.mem_map.mpr ⟨p, List.mem_filter.mpr ⟨hp, hm⟩, rfl⟩)
  · rw [htrR]
    simp only [radarr_dispatch, List.tail_cons]
  · intro p hp hm
    rw [htrR]
    exact List.mem_append_left _
      (List.mem_map.mpr ⟨p, List.mem_filter.mpr ⟨hp, hm⟩, rfl⟩)

/-- C6 [witness]: a completed delivery containing a hidden episode: its `.tmp`
file is renamed back (suffix stripped) in the run's trace. -/
theorem C6_witness :
    Action.rename "/imp/Show/ep2.mkv.tmp" (splitextFst "/imp/Show/ep2.mkv.tmp") ∈
      (sonarr_import_mode "/" "/inter/Show/ep1.mkv" "/imp/Show/ep1.mkv" "/inter" "/imp" false []
        ⟨["/inter/Show/ep1.mkv", "/imp/Show/ep1.mkv", "/imp/Show/ep2.mkv.tmp"],
         ["/inter", "/imp", "/inter/Show", "/imp/Show"]⟩).1 :=
  ((C6_unhide_before_queue "/" "/inter/Show/ep1.mkv" "/imp/Show/ep1.mkv" "/inter" "/imp"
    false []
    ⟨["/inter/Show/ep1.mkv", "/imp/Show/ep1.mkv", "/imp/Show/ep2.mkv.tmp"],
     ["/inter", "/imp", "/inter/Show", "/imp/Show"]⟩
    (by decide) (by decide) (by decide) (by decide) (by decide) (by decide)
    (by decide)).1).2 "/imp/Show/ep2.mkv.tmp" (by decide) (by decide)

end UnmanicPlugins
